import Mathlib

/-!
Verification development for the `fnb` repository (nearest shared-bicycle
finder).  The repository contains two variants of the same program:
`fnb.py` (functions `haversine_distance`, `compass_direction`,
`fetch_citybikes_data`, `group_and_sort_spots`) and `fb.py` /
`fbMaemo.py` (functions `haversine`, `calculate_direction`,
`fetch_citybikes_data`, `group_and_sort_spots`, plus the GPS fallback in
`fbMaemo.py`).  We embed both variants: definitions for `fnb.py` live in
the `Fnb` namespace, definitions for `fb.py` / `fbMaemo.py` (whose core
functions are textually identical in the two files) in the `Fb`
namespace.

Numbers: Python floats are modelled as exact rationals (every float is a
rational); real-valued trigonometric computations are modelled over `ℝ`.
Python `round(x, p)` (banker's rounding to `p` decimal places) applied to
a coordinate is represented by the integer `roundScaled p x`, the value
`round(x * 10^p)` — i.e. the rounded coordinate in units of `10^-p`
degrees.  This keeps every deduplication key inside kernel-computable
integer arithmetic; the theorem `roundScaled_eq_pyRound` below ties it to
the rational-level description `pyRound (x * 10^p)` of Python rounding.
-/

/-- Python `round` to an integer on an exact rational: round half to even
(banker's rounding), as performed by CPython on floats. -/
def pyRound (q : ℚ) : ℤ :=
  if Int.fract q < 1/2 then ⌊q⌋
  else if 1/2 < Int.fract q then ⌊q⌋ + 1
  else if ⌊q⌋ % 2 = 0 then ⌊q⌋ else ⌊q⌋ + 1

/-- The rounded coordinate `round(q, p)` of Python, represented as the
integer `round(q * 10^p)` (units of `10^-p` degrees), computed with pure
integer arithmetic so that it evaluates in the kernel: with
`n = q.num * 10^p` and `d = q.den` we take `f = ⌊n/d⌋` and compare twice
the remainder against `d` to decide the rounding direction, breaking the
tie towards the even integer exactly as CPython's `round` does. -/
def roundScaled (p : ℕ) (q : ℚ) : ℤ :=
  let n := q.num * 10 ^ p
  let d : ℤ := (q.den : ℤ)
  let f := n / d
  let r := n - f * d
  if 2 * r < d then f
  else if d < 2 * r then f + 1
  else if f % 2 = 0 then f else f + 1

/-- Python float modulo `x % m` for positive `m` (sign of the result
follows the divisor). -/
def pyFmod (x m : ℚ) : ℚ := x - m * ⌊x / m⌋

/-- Real-valued version of Python `round` to an integer (half to even),
used where the source rounds a computed float distance or bearing. -/
noncomputable def pyRoundR (x : ℝ) : ℤ :=
  if Int.fract x < 1/2 then ⌊x⌋
  else if 1/2 < Int.fract x then ⌊x⌋ + 1
  else if ⌊x⌋ % 2 = 0 then ⌊x⌋ else ⌊x⌋ + 1

/-- Python `round(x, 3)` on a float, modelled over the reals. -/
noncomputable def round3R (x : ℝ) : ℝ := (pyRoundR (x * 1000) : ℝ) / 1000

/-- Python float modulo over the reals (for positive divisor). -/
noncomputable def fmodR (x m : ℝ) : ℝ := x - m * ⌊x / m⌋

/-- `math.atan2`, with the branch structure of the C library function. -/
noncomputable def atan2 (y x : ℝ) : ℝ :=
  if 0 < x then Real.arctan (y / x)
  else if x < 0 then
    (if 0 ≤ y then Real.arctan (y / x) + Real.pi else Real.arctan (y / x) - Real.pi)
  else if 0 < y then Real.pi / 2
  else if y < 0 then -(Real.pi / 2)
  else 0

/-- The real coordinate represented by a scaled integer coordinate
(`k` in units of `10^-p` degrees). -/
noncomputable def coordR (p : ℕ) (k : ℤ) : ℝ := (k : ℝ) / 10 ^ p

/-- The 8-point compass rose of both variants
(`compass` in `fnb.py`, `directions` in `fb.py`). -/
def compassList : List String := ["N", "NE", "E", "SE", "S", "SW", "W", "NW"]

/-- `haversine_distance` of `fnb.py` (lines 10-17): the haversine
great-circle distance with Earth radius 6371, `math.radians x = x*π/180`. -/
noncomputable def Fnb.haversine_distance (lat1 lon1 lat2 lon2 : ℝ) : ℝ :=
  let dPhi := (lat2 - lat1) * Real.pi / 180
  let dLambda := (lon2 - lon1) * Real.pi / 180
  let a := Real.sin (dPhi / 2) ^ 2 +
    Real.cos (lat1 * Real.pi / 180) * Real.cos (lat2 * Real.pi / 180) *
      Real.sin (dLambda / 2) ^ 2
  let c := 2 * atan2 (Real.sqrt a) (Real.sqrt (1 - a))
  6371 * c

/-- `haversine` of `fb.py` (lines 91-99), identical formula with
`R = 6371.0`.  The `None` guard of lines 92-93 (returning `float('inf')`)
is omitted: inside `group_and_sort_spots` the function is only applied to
the numeric reference position and a numeric dictionary key, and the
claims about `haversine` quantify over present coordinates. -/
noncomputable def Fb.haversine (lat1 lon1 lat2 lon2 : ℝ) : ℝ :=
  let dlat := (lat2 - lat1) * Real.pi / 180
  let dlon := (lon2 - lon1) * Real.pi / 180
  let a := Real.sin (dlat / 2) ^ 2 +
    Real.cos (lat1 * Real.pi / 180) * Real.cos (lat2 * Real.pi / 180) *
      Real.sin (dlon / 2) ^ 2
  let c := 2 * atan2 (Real.sqrt a) (Real.sqrt (1 - a))
  6371 * c

/-- `compass_direction` of `fnb.py` (lines 19-27): initial bearing from
`atan2`, converted to degrees, then sector index
`round(((bearing + 360) % 360) / 45) % 8` with Python's `round`. -/
noncomputable def Fnb.compass_direction (lat1 lon1 lat2 lon2 : ℝ) : String :=
  let dLon := (lon2 - lon1) * Real.pi / 180
  let y := Real.sin dLon * Real.cos (lat2 * Real.pi / 180)
  let x := Real.cos (lat1 * Real.pi / 180) * Real.sin (lat2 * Real.pi / 180) -
    Real.sin (lat1 * Real.pi / 180) * Real.cos (lat2 * Real.pi / 180) * Real.cos dLon
  let bearing := atan2 y x * 180 / Real.pi
  compassList.getD (pyRoundR (fmodR (bearing + 360) 360 / 45) % 8).toNat ("N")

/-- `calculate_direction` of `fb.py` (lines 155-166): bearing converted
with the literal `3.14159265` instead of `math.pi`, normalised with
`% 360`, sector index `int((bearing + 22.5) // 45) % 8`.  Since the
normalised bearing is nonnegative, `int` of the float floor-division
equals the mathematical floor. -/
noncomputable def Fb.calculate_direction (lat1 lon1 lat2 lon2 : ℝ) : String :=
  let dlon := (lon2 - lon1) * Real.pi / 180
  let la1 := lat1 * Real.pi / 180
  let la2 := lat2 * Real.pi / 180
  let x := Real.sin dlon * Real.cos la2
  let y := Real.cos la1 * Real.sin la2 - Real.sin la1 * Real.cos la2 * Real.cos dlon
  let bearing := fmodR (atan2 x y * 180 / 3.14159265 + 360) 360
  compassList.getD (⌊(bearing + 22.5) / 45⌋ % 8).toNat ("N")

/-- The bearing-to-sector fragment of `Fnb.compass_direction`
(lines 26-27 of `fnb.py`) as a function of the bearing in degrees,
over exact rationals: `round(((θ + 360) % 360) / 45) % 8`. -/
def Fnb.bearingIndex (θ : ℚ) : ℤ := pyRound (pyFmod (θ + 360) 360 / 45) % 8

/-- The compass point chosen by `fnb.py` for a given bearing. -/
def Fnb.compass_of_bearing (θ : ℚ) : String :=
  compassList.getD (Fnb.bearingIndex θ).toNat ("N")

/-- The bearing-to-sector fragment of `Fb.calculate_direction`
(lines 162-166 of `fb.py`) as a function of the bearing in degrees:
normalise with `% 360`, then `int((bearing + 22.5) // 45) % 8`. -/
def Fb.bearingIndex (θ : ℚ) : ℤ := ⌊(pyFmod (θ + 360) 360 + 45/2) / 45⌋ % 8

/-- The compass point chosen by `fb.py` for a given bearing. -/
def Fb.direction_of_bearing (θ : ℚ) : String :=
  compassList.getD (Fb.bearingIndex θ).toNat ("N")

/-- Sector index as described by the specification: map the normalised
bearing to `round(((θ + 360) mod 360) / 45) mod 8` with standard
rounding, i.e. rounding half-values up (towards the higher-index compass
point).  Standard rounding of `x` is `⌊x + 1/2⌋`. -/
def specSectorIndex (θ : ℚ) : ℤ := ⌊pyFmod (θ + 360) 360 / 45 + 1/2⌋ % 8

/-- A free-floating bike record, with the coordinate field names that the
two variants probe (`lat`/`lon` and `latitude`/`longitude`); a field
holds `none` when the corresponding JSON key is absent. -/
structure BikeRec where
  bike_id : Option String
  lat : Option ℚ
  lon : Option ℚ
  latitude : Option ℚ
  longitude : Option ℚ
deriving DecidableEq

/-- A station record: display name, the coordinate fields probed by the
sources, and the two bike-count field variants that appear
(`free_bikes`, `bikes`). -/
structure StationRec where
  name : Option String
  lat : Option ℚ
  lon : Option ℚ
  latitude : Option ℚ
  longitude : Option ℚ
  free_bikes : Option ℤ
  bikes : Option ℤ
deriving DecidableEq

/-- `s.get("latitude", s.get("lat"))` of `fb.py`, and equally
`s["latitude"] if "latitude" in s else s["lat"]` of `fnb.py` (in the
model a field is either absent or holds a number). -/
def StationRec.latVal (s : StationRec) : Option ℚ := s.latitude.orElse fun _ => s.lat

/-- `s.get("longitude", s.get("lon"))`, see `StationRec.latVal`. -/
def StationRec.lonVal (s : StationRec) : Option ℚ := s.longitude.orElse fun _ => s.lon

/-- `b.get("latitude", b.get("lat"))` for bike records in `fb.py`. -/
def BikeRec.latVal (b : BikeRec) : Option ℚ := b.latitude.orElse fun _ => b.lat

/-- `b.get("longitude", b.get("lon"))` for bike records in `fb.py`. -/
def BikeRec.lonVal (b : BikeRec) : Option ℚ := b.longitude.orElse fun _ => b.lon

/-- The station bike-count expression of `fnb.py`
(`s.get("free_bikes", s.get("bikes", 0))`, lines 101 and 113). -/
def StationRec.countVal (s : StationRec) : ℤ := s.free_bikes.getD (s.bikes.getD 0)

/-- A spot dictionary of `fnb.py` `group_and_sort_spots`: the rounded
coordinate (in units of `10^-5` degrees), display name, bike count,
rounded distance and compass direction. -/
structure FnbSpot where
  name : String
  lat : ℤ
  lon : ℤ
  bikes : ℤ
  distance_km : ℝ
  direction : String

/-- The sort key comparison of `spots.sort(key=lambda x: x["distance_km"])`. -/
def fnbLe (a b : FnbSpot) : Prop := a.distance_km ≤ b.distance_km

noncomputable instance : DecidableRel fnbLe :=
  fun a b => inferInstanceAs (Decidable (a.distance_km ≤ b.distance_km))

instance : IsTotal FnbSpot fnbLe := ⟨fun a b => le_total a.distance_km b.distance_km⟩

instance : IsTrans FnbSpot fnbLe := ⟨fun _ _ _ h h2 => le_trans h h2⟩

instance : Inhabited FnbSpot := ⟨⟨"", 0, 0, 0, 0, ""⟩⟩

/-- The free-bike loop of `fnb.py` `group_and_sort_spots` (lines 84-98):
round the bike coordinate to 5 decimals, skip already-seen keys, and
append a one-bike spot.  Reading `bike["lat"]` / `bike["lon"]` raises
`KeyError` when the key is missing, so a record without a coordinate
makes the whole call fail; failure is modelled by `none`. -/
noncomputable def Fnb.bikePass (lat0 lon0 : ℝ) :
    List BikeRec → Finset (ℤ × ℤ) → List FnbSpot →
      Option (Finset (ℤ × ℤ) × List FnbSpot)
  | [], seen, spots => some (seen, spots)
  | b :: rest, seen, spots =>
    match b.lat, b.lon with
    | some bla, some blo =>
      let latB := roundScaled 5 bla
      let lonB := roundScaled 5 blo
      if (latB, lonB) ∈ seen then Fnb.bikePass lat0 lon0 rest seen spots
      else
        Fnb.bikePass lat0 lon0 rest (insert (latB, lonB) seen)
          (spots ++ [{ name := "Free-floating Bike #" ++ b.bike_id.getD ("unknown"),
                       lat := latB, lon := lonB, bikes := 1,
                       distance_km :=
                         round3R (Fnb.haversine_distance lat0 lon0 (coordR 5 latB) (coordR 5 lonB)),
                       direction :=
                         Fnb.compass_direction lat0 lon0 (coordR 5 latB) (coordR 5 lonB) }])
    | _, _ => none

/-- The station loop of `fnb.py` `group_and_sort_spots` (lines 100-116):
skip stations whose count expression is `0` (before touching the
coordinates), then round to 5 decimals, skip seen keys, append a spot
with the station's count.  A nonzero-count station without coordinates
raises `KeyError` (modelled by `none`). -/
noncomputable def Fnb.stationPass (lat0 lon0 : ℝ) :
    List StationRec → Finset (ℤ × ℤ) → List FnbSpot →
      Option (Finset (ℤ × ℤ) × List FnbSpot)
  | [], seen, spots => some (seen, spots)
  | s :: rest, seen, spots =>
    if s.countVal = 0 then Fnb.stationPass lat0 lon0 rest seen spots
    else
      match s.latVal, s.lonVal with
      | some sla, some slo =>
        let latS := roundScaled 5 sla
        let lonS := roundScaled 5 slo
        if (latS, lonS) ∈ seen then Fnb.stationPass lat0 lon0 rest seen spots
        else
          Fnb.stationPass lat0 lon0 rest (insert (latS, lonS) seen)
            (spots ++ [{ name := s.name.getD ("Unnamed"),
                         lat := latS, lon := lonS, bikes := s.countVal,
                         distance_km :=
                           round3R (Fnb.haversine_distance lat0 lon0 (coordR 5 latS) (coordR 5 lonS)),
                         direction :=
                           Fnb.compass_direction lat0 lon0 (coordR 5 latS) (coordR 5 lonS) }])
      | _, _ => none

/-- The spot list of `fnb.py` `group_and_sort_spots` before sorting:
bikes first, then stations, sharing the `seen` set. -/
noncomputable def Fnb.collectSpots (lat0 lon0 : ℝ) (bikes : List BikeRec)
    (stations : List StationRec) : Option (List FnbSpot) :=
  match Fnb.bikePass lat0 lon0 bikes ∅ [] with
  | none => none
  | some (seen, spots) =>
    match Fnb.stationPass lat0 lon0 stations seen spots with
    | none => none
    | some (_, spots2) => some spots2

/-- `group_and_sort_spots` of `fnb.py` (lines 80-119): collect, then
`spots.sort(key=lambda x: x["distance_km"])` (a stable sort, modelled by
insertion sort with the non-strict key comparison, which produces the
same ordering) and truncate to `top_n` (the Python default is 3). -/
noncomputable def Fnb.group_and_sort_spots (lat0 lon0 : ℝ) (bikes : List BikeRec)
    (stations : List StationRec) (top_n : ℕ) : Option (List FnbSpot) :=
  (Fnb.collectSpots lat0 lon0 bikes stations).map
    fun spots => (spots.insertionSort fnbLe).take top_n

/-- A value of `spots_dict` in `fb.py` `group_and_sort_spots`: the
unrounded coordinate of the first record seen at the key, the summed
station bike count, the set of station names and the set of free-bike
identifiers. -/
structure SpotAcc where
  lat : ℚ
  lon : ℚ
  station_bikes : ℤ
  station_names : Finset String
  free_bike_ids : Finset String
deriving DecidableEq

/-- An output spot of `fb.py` `group_and_sort_spots`: the dictionary key
(rounded coordinate, units of `10^-6` degrees) together with the
accumulated data, rounded distance and direction. -/
structure FbSpot where
  lat : ℤ
  lon : ℤ
  station_names : Finset String
  station_bikes : ℤ
  free_bike_ids : Finset String
  distance_km : ℝ
  direction : String

/-- The sort key comparison of `spots.sort(key=lambda x: x["distance_km"])`. -/
def fbLe (a b : FbSpot) : Prop := a.distance_km ≤ b.distance_km

noncomputable instance : DecidableRel fbLe :=
  fun a b => inferInstanceAs (Decidable (a.distance_km ≤ b.distance_km))

instance : IsTotal FbSpot fbLe := ⟨fun a b => le_total a.distance_km b.distance_km⟩

instance : IsTrans FbSpot fbLe := ⟨fun _ _ _ h h2 => le_trans h h2⟩

instance : Inhabited FbSpot := ⟨⟨0, 0, ∅, 0, ∅, 0, ""⟩⟩

/-- The `spots_dict` of `fb.py`, as an association list in insertion
order (Python dictionaries preserve insertion order, and the final spot
list is built by iterating over `spots_dict.items()`). -/
def Fb.update (key : ℤ × ℤ) (init : SpotAcc) (f : SpotAcc → SpotAcc) :
    List ((ℤ × ℤ) × SpotAcc) → List ((ℤ × ℤ) × SpotAcc)
  | [] => [(key, f init)]
  | (k, v) :: rest =>
    if k = key then (k, f v) :: rest else (k, v) :: Fb.update key init f rest

/-- One iteration of the station loop of `fb.py` `group_and_sort_spots`
(lines 104-120): look up the coordinate with the `latitude`/`lat`
fallback, skip the record when a component is missing, round to 6
decimals for the key, create the default entry if needed, then add
`s.get("free_bikes", 0)` to the count and the display name to the name
set.  Note: no zero-count filtering. -/
def Fb.stationStep (s : StationRec) (d : List ((ℤ × ℤ) × SpotAcc)) :
    List ((ℤ × ℤ) × SpotAcc) :=
  match s.latVal, s.lonVal with
  | some la, some lo =>
    Fb.update (roundScaled 6 la, roundScaled 6 lo) ⟨la, lo, 0, ∅, ∅⟩
      (fun v =>
        { v with
          station_bikes := v.station_bikes + s.free_bikes.getD 0,
          station_names := insert (s.name.getD ("Unnamed")) v.station_names }) d
  | _, _ => d

/-- The station loop of `fb.py`, iterated over the record list. -/
def Fb.stationPass : List StationRec → List ((ℤ × ℤ) × SpotAcc) → List ((ℤ × ℤ) × SpotAcc)
  | [], d => d
  | s :: rest, d => Fb.stationPass rest (Fb.stationStep s d)

/-- One iteration of the free-bike loop of `fb.py` `group_and_sort_spots`
(lines 122-137): same coordinate handling, and the bike identifier
(`b.get("bike_id", "unknown")`) is added to the key's identifier set. -/
def Fb.bikeStep (b : BikeRec) (d : List ((ℤ × ℤ) × SpotAcc)) :
    List ((ℤ × ℤ) × SpotAcc) :=
  match b.latVal, b.lonVal with
  | some la, some lo =>
    Fb.update (roundScaled 6 la, roundScaled 6 lo) ⟨la, lo, 0, ∅, ∅⟩
      (fun v =>
        { v with free_bike_ids := insert (b.bike_id.getD ("unknown")) v.free_bike_ids }) d
  | _, _ => d

/-- The free-bike loop of `fb.py`, iterated over the record list. -/
def Fb.bikePass : List BikeRec → List ((ℤ × ℤ) × SpotAcc) → List ((ℤ × ℤ) × SpotAcc)
  | [], d => d
  | b :: rest, d => Fb.bikePass rest (Fb.bikeStep b d)

/-- Lines 139-150 of `fb.py`: turn each dictionary item into an output
spot; the reported coordinate and the distance/direction arguments are
the dictionary key `(lat2, lon2)` (the rounded coordinate). -/
noncomputable def Fb.buildSpots (lat0 lon0 : ℝ)
    (d : List ((ℤ × ℤ) × SpotAcc)) : List FbSpot :=
  d.map fun kv =>
    { lat := kv.1.1, lon := kv.1.2,
      station_names := kv.2.station_names,
      station_bikes := kv.2.station_bikes,
      free_bike_ids := kv.2.free_bike_ids,
      distance_km := round3R (Fb.haversine lat0 lon0 (coordR 6 kv.1.1) (coordR 6 kv.1.2)),
      direction := Fb.calculate_direction lat0 lon0 (coordR 6 kv.1.1) (coordR 6 kv.1.2) }

/-- The spot list of `fb.py` `group_and_sort_spots` before sorting,
in dictionary insertion order (stations first, then free bikes). -/
noncomputable def Fb.spotList (lat0 lon0 : ℝ) (bikes : List BikeRec)
    (stations : List StationRec) : List FbSpot :=
  Fb.buildSpots lat0 lon0 (Fb.bikePass bikes (Fb.stationPass stations []))

/-- `group_and_sort_spots` of `fb.py` (lines 101-153): build, stable-sort
by the rounded distance, return the first three. -/
noncomputable def Fb.group_and_sort_spots (lat0 lon0 : ℝ) (bikes : List BikeRec)
    (stations : List StationRec) : List FbSpot :=
  ((Fb.spotList lat0 lon0 bikes stations).insertionSort fbLe).take 3

/-- Lower-casing of a Python string (`str.lower()` on ASCII city names). -/
def strLower (s : String) : String := ⟨s.data.map Char.toLower⟩

/-- Python substring test `needle in hay` (contiguous substring). -/
def strContains (hay needle : String) : Bool := decide (needle.data <:+: hay.data)

/-- Lexicographic comparison of character lists by code point, the order
Python uses when sorting strings. -/
def charListLe : List Char → List Char → Bool
  | [], _ => true
  | _ :: _, [] => false
  | a :: as, b :: bs =>
    if a.toNat < b.toNat then true
    else if b.toNat < a.toNat then false
    else charListLe as bs

/-- Python string comparison `a <= b` (code-point lexicographic). -/
def strLe (a b : String) : Bool := charListLe a.data b.data

/-- A CityBik.es network directory entry as consumed by
`fetch_citybikes_data`: identifier, city name, and the station list that
the follow-up request for this network would return. -/
structure Network where
  id : String
  city : String
  stations : List StationRec
deriving DecidableEq

/-- Result of the city lookup: either the station list and the matched
city name, or termination via `sys.exit(1)` after printing a list of
candidate city lines. -/
inductive CityResult where
  | found (stations : List StationRec) (city : String)
  | failure (printed : List String)
deriving DecidableEq

/-- The match list of `fetch_citybikes_data` in `fnb.py` (lines 60-63):
networks whose id contains `"nextbike"` and whose city contains the
query case-insensitively. -/
def Fnb.cityMatches (networks : List Network) (city_name : String) : List Network :=
  networks.filter fun n =>
    strContains n.id ("nextbike") && strContains (strLower n.city) (strLower city_name)

/-- `sorted(all_cities)` of `fnb.py` line 75: the cities of all nextbike
networks, sorted ascending (Python's stable `sorted`, modelled by
insertion sort over the string order). -/
def Fnb.allCities (networks : List Network) : List String :=
  ((networks.filter fun n => strContains n.id ("nextbike")).map fun n => n.city).insertionSort
    fun a b => strLe a b = true

/-- `fetch_citybikes_data` of `fnb.py` (lines 56-78): exactly one match
returns that network's stations and city; otherwise the function prints
the full sorted nextbike city list (both in the zero-match and in the
multiple-match branch, lines 75-77) and exits. -/
def Fnb.fetch_citybikes_data (networks : List Network) (city_name : String) : CityResult :=
  match Fnb.cityMatches networks city_name with
  | [network] => CityResult.found network.stations network.city
  | _ => CityResult.failure (Fnb.allCities networks)

/-- The match list of `fetch_citybikes_data` in `fb.py` (line 34): all
networks whose city contains the query case-insensitively. -/
def Fb.cityMatches (networks : List Network) (city_query : String) : List Network :=
  networks.filter fun n => strContains (strLower n.city) (strLower city_query)

/-- `fetch_citybikes_data` of `fb.py` (lines 31-50): one match returns
stations and city; more than one match prints one `city (id)` line per
matching network and exits; zero matches prints only a message with no
candidate list and exits. -/
def Fb.fetch_citybikes_data (networks : List Network) (city_query : String) : CityResult :=
  match Fb.cityMatches networks city_query with
  | [m] => CityResult.found m.stations m.city
  | [] => CityResult.failure []
  | ms => CityResult.failure (ms.map fun m => m.city ++ " (" ++ m.id ++ ")")

/-- Outcome of the position acquisition in `fbMaemo.py`: either a
coordinate pair is returned, or the program terminates with `exit(1)`. -/
inductive FixOutcome where
  | coords (lat lon : ℚ)
  | exitFail
deriving DecidableEq

/-- `load_last_coordinates` of `fbMaemo.py` (lines 31-37): the parsed
cache file contents, or `(None, None)` when the file is missing or
unreadable. -/
def load_last_coordinates (cache : Option (ℚ × ℚ)) : Option ℚ × Option ℚ :=
  match cache with
  | some c => (some c.1, some c.2)
  | none => (none, none)

/-- The fallback block of `get_gps_coordinates` in `fbMaemo.py`
(lines 96-103), reached when no GPS fix arrived: `if lat and lon:`
returns the cached pair, else `exit(1)`.  Python truthiness on the
loaded values: `None` is falsy and so is the float `0.0`, hence the
test succeeds only when both components are present and nonzero. -/
def gpsFixFallback (lat lon : Option ℚ) : FixOutcome :=
  match lat, lon with
  | some la, some lo =>
    if la ≠ 0 ∧ lo ≠ 0 then FixOutcome.coords la lo else FixOutcome.exitFail
  | _, _ => FixOutcome.exitFail

/-- The timeout path of `get_gps_coordinates` in `fbMaemo.py`: load the
cached coordinates and apply the truthiness-guarded fallback. -/
def get_gps_coordinates_timeout (cache : Option (ℚ × ℚ)) : FixOutcome :=
  gpsFixFallback (load_last_coordinates cache).1 (load_last_coordinates cache).2

/-- The dictionary key a station record contributes to in `fb.py`
(`none` when a coordinate component is missing). -/
def stationKeyS (s : StationRec) : Option (ℤ × ℤ) :=
  match s.latVal, s.lonVal with
  | some la, some lo => some (roundScaled 6 la, roundScaled 6 lo)
  | _, _ => none

/-- The dictionary key a bike record contributes to in `fb.py`. -/
def bikeKeyS (b : BikeRec) : Option (ℤ × ℤ) :=
  match b.latVal, b.lonVal with
  | some la, some lo => some (roundScaled 6 la, roundScaled 6 lo)
  | _, _ => none

/-- Sum of the `free_bikes` counts (default 0) of all station records
whose rounded coordinate is `k`. -/
def stationSum (k : ℤ × ℤ) (ss : List StationRec) : ℤ :=
  ((ss.filter fun s => stationKeyS s = some k).map fun s => s.free_bikes.getD 0).sum

/-- The set of effective bike identifiers (`bike_id`, default
`"unknown"`) of the bike records whose rounded coordinate is `k`. -/
def bikeIds (k : ℤ × ℤ) (bs : List BikeRec) : Finset String :=
  ((bs.filter fun b => bikeKeyS b = some k).map fun b => b.bike_id.getD ("unknown")).toFinset

/-- Invariant of the `fb.py` spot dictionary after processing the station
records `ss` and the bike records `bs`: keys are distinct, every entry
carries exactly the station sum and identifier set of its key, and
absent keys have no contributions. -/
def FbInv (d : List ((ℤ × ℤ) × SpotAcc)) (ss : List StationRec) (bs : List BikeRec) : Prop :=
  (d.map Prod.fst).Nodup
  ∧ (∀ kv ∈ d, kv.2.station_bikes = stationSum kv.1 ss ∧ kv.2.free_bike_ids = bikeIds kv.1 bs)
  ∧ (∀ k : ℤ × ℤ, k ∉ d.map Prod.fst → stationSum k ss = 0 ∧ bikeIds k bs = ∅)

/-- The scenario coordinate 48.2100 (as an exact rational in lowest
terms, so that its numerator and denominator evaluate in the kernel). -/
def q48_21 : ℚ := ⟨4821, 100, by norm_num, by norm_num⟩

/-- The scenario coordinate 16.3750 (`16.375 = 131/8` in lowest terms). -/
def q16_375 : ℚ := ⟨131, 8, by norm_num, by norm_num⟩

/-- Helper: a rational built from an integer numerator and positive
integer denominator is below one half exactly when twice the numerator
is below the denominator. -/
theorem int_div_lt_half (r d : ℤ) (hd : 0 < d) :
    ((r : ℚ) / ((d : ℤ) : ℚ) < 1/2) ↔ 2 * r < d := by
  rw [div_lt_div_iff₀ (by exact_mod_cast hd) (by norm_num : (0:ℚ) < 2), one_mul]
  norm_cast
  omega

/-- Helper: mirror image of `int_div_lt_half`. -/
theorem half_lt_int_div (r d : ℤ) (hd : 0 < d) :
    (1/2 < (r : ℚ) / ((d : ℤ) : ℚ)) ↔ d < 2 * r := by
  rw [div_lt_div_iff₀ (by norm_num : (0:ℚ) < 2) (by exact_mod_cast hd), one_mul]
  norm_cast
  omega

/-- Helper: `roundScaled` computes Python's rounding of `q * 10^p`:
the integer-arithmetic key equals banker's rounding of the scaled
rational. -/
theorem roundScaled_eq_pyRound (p : ℕ) (q : ℚ) : roundScaled p q = pyRound (q * 10 ^ p) := by
  have hdpos : (0 : ℤ) < (q.den : ℤ) := Int.natCast_pos.mpr q.pos
  have hdQ : (0 : ℚ) < ((q.den : ℤ) : ℚ) := by exact_mod_cast hdpos
  have hx : q * 10 ^ p = ((q.num * 10 ^ p : ℤ) : ℚ) / ((q.den : ℤ) : ℚ) := by
    conv_lhs => rw [← Rat.num_div_den q]
    push_cast
    ring
  have hfloor : ⌊q * 10 ^ p⌋ = (q.num * 10 ^ p) / (q.den : ℤ) := by
    rw [hx]
    exact_mod_cast Rat.floor_intCast_div_natCast (q.num * 10 ^ p) q.den
  have hfract : Int.fract (q * 10 ^ p) =
      ((q.num * 10 ^ p - (q.num * 10 ^ p) / (q.den : ℤ) * (q.den : ℤ) : ℤ) : ℚ) /
        ((q.den : ℤ) : ℚ) := by
    rw [Int.fract, hfloor, hx]
    push_cast
    field_simp
    ring
  have h2 : Int.fract (q * 10 ^ p) < 1/2 ↔
      2 * (q.num * 10 ^ p - (q.num * 10 ^ p) / (q.den : ℤ) * (q.den : ℤ)) < (q.den : ℤ) := by
    rw [hfract]
    exact int_div_lt_half _ _ hdpos
  have h3 : 1/2 < Int.fract (q * 10 ^ p) ↔
      (q.den : ℤ) < 2 * (q.num * 10 ^ p - (q.num * 10 ^ p) / (q.den : ℤ) * (q.den : ℤ)) := by
    rw [hfract]
    exact half_lt_int_div _ _ hdpos
  simp only [roundScaled, pyRound, hfloor, h2, h3]

/-- Helper: `fb.py`'s `haversine` is the same real function as
`fnb.py`'s `haversine_distance`. -/
theorem Fb.haversine_eq (lat1 lon1 lat2 lon2 : ℝ) :
    Fb.haversine lat1 lon1 lat2 lon2 = Fnb.haversine_distance lat1 lon1 lat2 lon2 := rfl

/-- Helper: the haversine distance of a point to itself is `0`. -/
theorem haversine_self (la lo : ℝ) : Fnb.haversine_distance la lo la lo = 0 := by
  simp [Fnb.haversine_distance, atan2, Real.arctan_zero]

/-- Helper: the haversine distance is symmetric in its two coordinates. -/
theorem haversine_comm (lat1 lon1 lat2 lon2 : ℝ) :
    Fnb.haversine_distance lat1 lon1 lat2 lon2 = Fnb.haversine_distance lat2 lon2 lat1 lon1 := by
  have hs : ∀ u v : ℝ, Real.sin ((u - v) * Real.pi / 180 / 2) ^ 2 =
      Real.sin ((v - u) * Real.pi / 180 / 2) ^ 2 := by
    intro u v
    rw [show (u - v) * Real.pi / 180 / 2 = -((v - u) * Real.pi / 180 / 2) by ring, Real.sin_neg]
    ring
  simp only [Fnb.haversine_distance]
  rw [hs lat1 lat2, hs lon1 lon2,
    mul_comm (Real.cos (lat2 * Real.pi / 180)) (Real.cos (lat1 * Real.pi / 180))]

/-- C8: the haversine distance function of both variants is symmetric
(`distance(a, b) = distance(b, a)`) and returns exactly `0` on
identical points (`distance(a, a) = 0`). -/
theorem C8_haversine_symm_self (lat1 lon1 lat2 lon2 : ℝ) :
    Fnb.haversine_distance lat1 lon1 lat2 lon2 = Fnb.haversine_distance lat2 lon2 lat1 lon1
    ∧ Fnb.haversine_distance lat1 lon1 lat1 lon1 = 0
    ∧ Fb.haversine lat1 lon1 lat2 lon2 = Fb.haversine lat2 lon2 lat1 lon1
    ∧ Fb.haversine lat1 lon1 lat1 lon1 = 0 :=
  ⟨haversine_comm lat1 lon1 lat2 lon2, haversine_self lat1 lon1,
    by rw [Fb.haversine_eq, Fb.haversine_eq]; exact haversine_comm lat1 lon1 lat2 lon2,
    by rw [Fb.haversine_eq]; exact haversine_self lat1 lon1⟩

/-- C9: on GPS timeout, the cached coordinate is returned only when both
components are truthy; a cached latitude or longitude equal to `0.0`
(or an absent cache) leads to `exit(1)`. -/
theorem C9_gps_fallback_truthiness :
    (∀ la lo : ℚ, la ≠ 0 → lo ≠ 0 →
        get_gps_coordinates_timeout (some (la, lo)) = FixOutcome.coords la lo)
    ∧ (∀ lo : ℚ, get_gps_coordinates_timeout (some (0, lo)) = FixOutcome.exitFail)
    ∧ (∀ la : ℚ, get_gps_coordinates_timeout (some (la, 0)) = FixOutcome.exitFail)
    ∧ get_gps_coordinates_timeout none = FixOutcome.exitFail := by
  refine ⟨fun la lo h1 h2 => ?_, fun lo => ?_, fun la => ?_, rfl⟩
  · simp [get_gps_coordinates_timeout, load_last_coordinates, gpsFixFallback, h1, h2]
  · simp [get_gps_coordinates_timeout, load_last_coordinates, gpsFixFallback]
  · simp [get_gps_coordinates_timeout, load_last_coordinates, gpsFixFallback]

/-- Witness for C9 at a concrete cache. -/
theorem C9_gps_fallback_truthiness_witness :
    get_gps_coordinates_timeout (some (48, 16)) = FixOutcome.coords 48 16
    ∧ get_gps_coordinates_timeout (some (0, 16)) = FixOutcome.exitFail :=
  ⟨C9_gps_fallback_truthiness.1 48 16 (by decide) (by decide),
    C9_gps_fallback_truthiness.2.1 16⟩

/-- Helper: standard rounding below a tie keeps the floor. -/
theorem floor_add_half_of_fract_lt (x : ℚ) (h : Int.fract x < 1/2) : ⌊x + 1/2⌋ = ⌊x⌋ := by
  have h0 : 0 ≤ Int.fract x := Int.fract_nonneg x
  have hx : (⌊x⌋ : ℚ) + Int.fract x = x := Int.floor_add_fract x
  rw [Int.floor_eq_iff]
  constructor
  · linarith
  · linarith

/-- Helper: standard rounding at or above a tie moves to the next
integer. -/
theorem floor_add_half_of_fract_ge (x : ℚ) (h : 1/2 ≤ Int.fract x) : ⌊x + 1/2⌋ = ⌊x⌋ + 1 := by
  have h1 : Int.fract x < 1 := Int.fract_lt_one x
  have hx : (⌊x⌋ : ℚ) + Int.fract x = x := Int.floor_add_fract x
  rw [Int.floor_eq_iff]
  constructor
  · push_cast
    linarith
  · push_cast
    linarith

/-- C4 (amended): the `fb.py` variant maps the bearing to
`round(((θ+360) mod 360)/45) mod 8` with standard rounding, i.e. at an
exact sector boundary it picks the higher-index compass point; the
`fnb.py` variant uses Python's `round` (half to even), which agrees with
the standard-rounding formula except at exact boundaries with an even
lower sector index, where it picks the lower-index (even) point instead
of the higher one. -/
theorem C4_compass_sector (θ : ℚ) :
    Fb.direction_of_bearing θ = compassList.getD (specSectorIndex θ).toNat ("N")
    ∧ Fnb.compass_of_bearing θ =
        compassList.getD
          (if Int.fract (pyFmod (θ + 360) 360 / 45) = 1/2 ∧ ⌊pyFmod (θ + 360) 360 / 45⌋ % 2 = 0
            then ⌊pyFmod (θ + 360) 360 / 45⌋ % 8
            else specSectorIndex θ).toNat ("N") := by
  constructor
  · suffices h : Fb.bearingIndex θ = specSectorIndex θ by
      unfold Fb.direction_of_bearing
      rw [h]
    unfold Fb.bearingIndex specSectorIndex
    rw [show (pyFmod (θ + 360) 360 + 45/2) / 45 = pyFmod (θ + 360) 360 / 45 + 1/2 by ring]
  · suffices h : Fnb.bearingIndex θ =
        (if Int.fract (pyFmod (θ + 360) 360 / 45) = 1/2 ∧ ⌊pyFmod (θ + 360) 360 / 45⌋ % 2 = 0
          then ⌊pyFmod (θ + 360) 360 / 45⌋ % 8
          else specSectorIndex θ) by
      unfold Fnb.compass_of_bearing
      rw [h]
    unfold Fnb.bearingIndex specSectorIndex pyRound
    rcases lt_trichotomy (Int.fract (pyFmod (θ + 360) 360 / 45)) (1/2) with h | h | h
    · rw [if_pos h, if_neg (fun hc => absurd hc.1 (ne_of_lt h)),
        floor_add_half_of_fract_lt _ h]
    · rw [if_neg (by rw [h]; exact lt_irrefl _), if_neg (by rw [h]; exact lt_irrefl _)]
      by_cases hpar : ⌊pyFmod (θ + 360) 360 / 45⌋ % 2 = 0
      · rw [if_pos hpar, if_pos ⟨h, hpar⟩]
      · rw [if_neg hpar, if_neg (fun hc => hpar hc.2),
          floor_add_half_of_fract_ge _ (le_of_eq h.symm)]
    · rw [if_neg (not_lt.mpr h.le), if_pos h,
        if_neg (fun hc => absurd hc.1 (ne_of_gt h)),
        floor_add_half_of_fract_ge _ h.le]

/-- C4 counterexample: at the exact boundary bearing 22.5° the `fnb.py`
sector computation returns `N` (index 0), not the higher-index adjacent
point `NE` claimed by the specification (Python `round(0.5) = 0`). -/
theorem C4_counterexample :
    Fnb.compass_of_bearing (45/2) = ("N") ∧ Fnb.compass_of_bearing (45/2) ≠ ("NE") := by
  have hfmod : pyFmod ((45:ℚ)/2 + 360) 360 = 45/2 := by
    unfold pyFmod
    rw [show ((45:ℚ)/2 + 360) / 360 = 765/720 by norm_num]
    rw [show ⌊(765/720 : ℚ)⌋ = 1 by norm_num [Int.floor_eq_iff]]
    norm_num
  have hmain : Fnb.compass_of_bearing (45/2) = ("N") := by
    unfold Fnb.compass_of_bearing Fnb.bearingIndex pyRound
    rw [hfmod, show ((45:ℚ)/2/45) = 1/2 by norm_num]
    rw [show ⌊(1/2 : ℚ)⌋ = 0 by norm_num [Int.floor_eq_iff]]
    rw [show Int.fract ((1:ℚ)/2) = 1/2 by
      rw [Int.fract]
      rw [show ⌊(1/2 : ℚ)⌋ = 0 by norm_num [Int.floor_eq_iff]]
      norm_num]
    norm_num
    decide
  exact ⟨hmain, by rw [hmain]; decide⟩

/-- C1: for reference (48.2082, 16.3738), one station named `A` with
count 5 at (48.2100, 16.3750) and one free bike at the same rounded
coordinate, the aggregation returns exactly one spot, with name set
`{A}`, aggregate station count 5, and a free-bike identifier set of
size 1 (the `fb.py` aggregation, whose spots carry name sets and
free-bike identifier sets; its truncation bound is the fixed default 3). -/
theorem C1_vienna_scenario :
    ((Fb.group_and_sort_spots 48.2082 16.3738
        [⟨some ("bike1"), some q48_21, some q16_375, none, none⟩]
        [⟨some ("A"), some q48_21, some q16_375, none, none, some 5, none⟩]).map
      fun sp => (sp.station_names, sp.station_bikes, sp.free_bike_ids.card)) =
        [({"A"}, 5, 1)] := by
  decide

/-- C3 counterexample: the `fb.py` aggregation performs no zero-count
filtering, so a single station with `free_bikes = 0` produces an output
spot with aggregate count 0 and an empty free-bike set. -/
theorem C3_counterexample :
    ((Fb.group_and_sort_spots 0 0 []
        [⟨some ("Z"), some 1, some 1, none, none, some 0, none⟩]).map
      fun sp => (sp.station_bikes, sp.free_bike_ids)) = [(0, ∅)] := by
  decide

/-- C5 counterexample: `fnb.py` reads `bike["lat"]` unconditionally, so
a free-bike record without a latitude raises `KeyError` (modelled as
`none`) instead of being skipped; removing the record yields `some []`. -/
theorem C5_counterexample :
    Fnb.group_and_sort_spots 0 0 [⟨some ("b2"), none, some 1, none, none⟩] [] 3 = none
    ∧ Fnb.group_and_sort_spots 0 0 [] [] 3 = some [] :=
  ⟨rfl, rfl⟩

/-- Helper: truncated insertion-sorted fnb spot lists are short and
pairwise ordered by distance. -/
theorem fnb_sort_take (l : List FnbSpot) (n : ℕ) :
    ((l.insertionSort fnbLe).take n).length ≤ n
    ∧ ((l.insertionSort fnbLe).take n).Pairwise fnbLe :=
  ⟨by rw [List.length_take]; exact min_le_left _ _,
    List.Pairwise.sublist (List.take_sublist _ _) (List.sorted_insertionSort fnbLe _)⟩

/-- Helper: truncated insertion-sorted fb spot lists are short and
pairwise ordered by distance. -/
theorem fb_sort_take (l : List FbSpot) (n : ℕ) :
    ((l.insertionSort fbLe).take n).length ≤ n
    ∧ ((l.insertionSort fbLe).take n).Pairwise fbLe :=
  ⟨by rw [List.length_take]; exact min_le_left _ _,
    List.Pairwise.sublist (List.take_sublist _ _) (List.sorted_insertionSort fbLe _)⟩

/-- Helper: a successful `fnb.py` aggregation is the truncated sort of a
successfully collected spot list. -/
theorem Fnb.group_eq_collect (lat0 lon0 : ℝ) (bikes : List BikeRec)
    (stations : List StationRec) (n : ℕ) (out : List FnbSpot)
    (hout : Fnb.group_and_sort_spots lat0 lon0 bikes stations n = some out) :
    ∃ pre, Fnb.collectSpots lat0 lon0 bikes stations = some pre
      ∧ out = (pre.insertionSort fnbLe).take n := by
  unfold Fnb.group_and_sort_spots at hout
  cases hc : Fnb.collectSpots lat0 lon0 bikes stations with
  | none => rw [hc] at hout; simp at hout
  | some pre =>
    rw [hc] at hout
    exact ⟨pre, rfl, (Option.some.inj hout).symm⟩

/-- C2: the fnb.py aggregation (when it succeeds) returns at most
`top_n` spots, ordered by non-decreasing stored distance, and the fb.py
aggregation returns at most 3 spots, likewise ordered. -/
theorem C2_top_n_sorted (lat0 lon0 : ℝ) (bikes : List BikeRec) (stations : List StationRec)
    (n : ℕ) (out : List FnbSpot)
    (hout : Fnb.group_and_sort_spots lat0 lon0 bikes stations n = some out) :
    out.length ≤ n ∧ out.Pairwise fnbLe
    ∧ (Fb.group_and_sort_spots lat0 lon0 bikes stations).length ≤ 3
    ∧ (Fb.group_and_sort_spots lat0 lon0 bikes stations).Pairwise fbLe := by
  obtain ⟨pre, -, rfl⟩ := Fnb.group_eq_collect lat0 lon0 bikes stations n out hout
  exact ⟨(fnb_sort_take pre n).1, (fnb_sort_take pre n).2,
    (fb_sort_take (Fb.spotList lat0 lon0 bikes stations) 3).1,
    (fb_sort_take (Fb.spotList lat0 lon0 bikes stations) 3).2⟩

/-- Witness for C2 at a concrete (empty) input. -/
theorem C2_top_n_sorted_witness :
    ([] : List FnbSpot).length ≤ 3 ∧ ([] : List FnbSpot).Pairwise fnbLe
    ∧ (Fb.group_and_sort_spots 0 0 [] []).length ≤ 3
    ∧ (Fb.group_and_sort_spots 0 0 [] []).Pairwise fbLe :=
  C2_top_n_sorted 0 0 [] [] 3 [] rfl

/-- Helper: the fnb.py bike loop only ever appends spots with a bike
count of 1, hence preserves "no spot has count 0". -/
theorem Fnb.bikePass_nonzero (lat0 lon0 : ℝ) :
    ∀ (bs : List BikeRec) (seen : Finset (ℤ × ℤ)) (spots : List FnbSpot)
      (res : Finset (ℤ × ℤ) × List FnbSpot),
      Fnb.bikePass lat0 lon0 bs seen spots = some res →
      (∀ sp ∈ spots, sp.bikes ≠ 0) → ∀ sp ∈ res.2, sp.bikes ≠ 0 := by
  intro bs
  induction bs with
  | nil =>
    intro seen spots res h hs
    simp only [Fnb.bikePass, Option.some.injEq] at h
    rw [← h]
    exact hs
  | cons b rest ih =>
    intro seen spots res h hs
    cases hbl : b.lat with
    | none => simp [Fnb.bikePass, hbl] at h
    | some bla =>
      cases hbo : b.lon with
      | none => simp [Fnb.bikePass, hbl, hbo] at h
      | some blo =>
        simp only [Fnb.bikePass, hbl, hbo] at h
        by_cases hk : (roundScaled 5 bla, roundScaled 5 blo) ∈ seen
        · rw [if_pos hk] at h
          exact ih _ _ _ h hs
        · rw [if_neg hk] at h
          refine ih _ _ _ h ?_
          intro sp hsp
          rcases List.mem_append.mp hsp with hin | hin
          · exact hs sp hin
          · rw [List.mem_singleton.mp hin]
            exact one_ne_zero

/-- Helper: the fnb.py station loop appends only spots whose count
passed the nonzero guard, hence preserves "no spot has count 0". -/
theorem Fnb.stationPass_nonzero (lat0 lon0 : ℝ) :
    ∀ (ss : List StationRec) (seen : Finset (ℤ × ℤ)) (spots : List FnbSpot)
      (res : Finset (ℤ × ℤ) × List FnbSpot),
      Fnb.stationPass lat0 lon0 ss seen spots = some res →
      (∀ sp ∈ spots, sp.bikes ≠ 0) → ∀ sp ∈ res.2, sp.bikes ≠ 0 := by
  intro ss
  induction ss with
  | nil =>
    intro seen spots res h hs
    simp only [Fnb.stationPass, Option.some.injEq] at h
    rw [← h]
    exact hs
  | cons s rest ih =>
    intro seen spots res h hs
    by_cases hc : s.countVal = 0
    · rw [Fnb.stationPass, if_pos hc] at h
      exact ih _ _ _ h hs
    · rw [Fnb.stationPass, if_neg hc] at h
      cases hbl : s.latVal with
      | none => rw [hbl] at h; simp at h
      | some sla =>
        cases hbo : s.lonVal with
        | none => rw [hbl, hbo] at h; simp at h
        | some slo =>
          rw [hbl, hbo] at h
          simp only at h
          by_cases hk : (roundScaled 5 sla, roundScaled 5 slo) ∈ seen
          · rw [if_pos hk] at h
            exact ih _ _ _ h hs
          · rw [if_neg hk] at h
            refine ih _ _ _ h ?_
            intro sp hsp
            rcases List.mem_append.mp hsp with hin | hin
            · exact hs sp hin
            · rw [List.mem_singleton.mp hin]
              exact hc

/-- C3 (amended): every spot returned by the fnb.py aggregation has a
nonzero bike count (free-bike spots carry count 1, and zero-count
stations are skipped before entering the collection); the fb.py variant
performs no such filtering (see the counterexample). -/
theorem C3_fnb_nonzero (lat0 lon0 : ℝ) (bikes : List BikeRec) (stations : List StationRec)
    (n : ℕ) (out : List FnbSpot)
    (hout : Fnb.group_and_sort_spots lat0 lon0 bikes stations n = some out) :
    (0 : ℤ) ∉ out.map FnbSpot.bikes := by
  obtain ⟨pre, hpre, rfl⟩ := Fnb.group_eq_collect lat0 lon0 bikes stations n out hout
  have hall : ∀ sp ∈ pre, sp.bikes ≠ 0 := by
    unfold Fnb.collectSpots at hpre
    cases hb : Fnb.bikePass lat0 lon0 bikes ∅ [] with
    | none => rw [hb] at hpre; simp at hpre
    | some res1 =>
      obtain ⟨seen1, spots1⟩ := res1
      rw [hb] at hpre
      simp only at hpre
      have h1 : ∀ sp ∈ spots1, sp.bikes ≠ 0 :=
        Fnb.bikePass_nonzero lat0 lon0 bikes ∅ [] (seen1, spots1) hb (by simp)
      cases hst : Fnb.stationPass lat0 lon0 stations seen1 spots1 with
      | none => rw [hst] at hpre; simp at hpre
      | some res2 =>
        obtain ⟨seen2, spots2⟩ := res2
        rw [hst] at hpre
        simp only [Option.some.injEq] at hpre
        have h2 : ∀ sp ∈ spots2, sp.bikes ≠ 0 :=
          Fnb.stationPass_nonzero lat0 lon0 stations seen1 spots1 (seen2, spots2) hst h1
        rw [← hpre]
        exact h2
  intro hmem
  obtain ⟨sp, hsp, hz⟩ := List.mem_map.mp hmem
  have hsp2 : sp ∈ pre :=
    (List.perm_insertionSort fnbLe pre).subset ((List.take_sublist _ _).subset hsp)
  exact hall sp hsp2 hz

/-- Witness for C3 at a concrete one-bike input. -/
theorem C3_fnb_nonzero_witness :
    (0 : ℤ) ∉ ((Fnb.group_and_sort_spots 0 0 [⟨some ("b1"), some 1, some 1, none, none⟩] [] 3).getD
      []).map FnbSpot.bikes :=
  C3_fnb_nonzero 0 0 [⟨some ("b1"), some 1, some 1, none, none⟩] [] 3
    ((Fnb.group_and_sort_spots 0 0 [⟨some ("b1"), some 1, some 1, none, none⟩] [] 3).getD []) rfl

/-- Helper: a station record with a missing coordinate component leaves
the fb.py spot dictionary unchanged. -/
theorem Fb.stationStep_skip (s : StationRec) (hs : s.latVal = none ∨ s.lonVal = none)
    (d : List ((ℤ × ℤ) × SpotAcc)) : Fb.stationStep s d = d := by
  rcases hs with h | h
  · cases hlon : s.lonVal <;> simp [Fb.stationStep, h, hlon]
  · cases hlat : s.latVal <;> simp [Fb.stationStep, hlat, h]

/-- Helper: a bike record with a missing coordinate component leaves
the fb.py spot dictionary unchanged. -/
theorem Fb.bikeStep_skip (b : BikeRec) (hb : b.latVal = none ∨ b.lonVal = none)
    (d : List ((ℤ × ℤ) × SpotAcc)) : Fb.bikeStep b d = d := by
  rcases hb with h | h
  · cases hlon : b.lonVal <;> simp [Fb.bikeStep, h, hlon]
  · cases hlat : b.latVal <;> simp [Fb.bikeStep, hlat, h]

/-- Helper: removing a coordinate-less station record anywhere in the
list does not change the station pass. -/
theorem Fb.stationPass_middle (s : StationRec) (hs : s.latVal = none ∨ s.lonVal = none) :
    ∀ (ss1 ss2 : List StationRec) (d : List ((ℤ × ℤ) × SpotAcc)),
      Fb.stationPass (ss1 ++ s :: ss2) d = Fb.stationPass (ss1 ++ ss2) d := by
  intro ss1
  induction ss1 with
  | nil =>
    intro ss2 d
    simp only [List.nil_append, Fb.stationPass]
    rw [Fb.stationStep_skip s hs]
  | cons s0 rest ih =>
    intro ss2 d
    simp only [List.cons_append, Fb.stationPass]
    exact ih ss2 (Fb.stationStep s0 d)

/-- Helper: removing a coordinate-less bike record anywhere in the list
does not change the bike pass. -/
theorem Fb.bikePass_middle (b : BikeRec) (hb : b.latVal = none ∨ b.lonVal = none) :
    ∀ (bs1 bs2 : List BikeRec) (d : List ((ℤ × ℤ) × SpotAcc)),
      Fb.bikePass (bs1 ++ b :: bs2) d = Fb.bikePass (bs1 ++ bs2) d := by
  intro bs1
  induction bs1 with
  | nil =>
    intro bs2 d
    simp only [List.nil_append, Fb.bikePass]
    rw [Fb.bikeStep_skip b hb]
  | cons b0 rest ih =>
    intro bs2 d
    simp only [List.cons_append, Fb.bikePass]
    exact ih bs2 (Fb.bikeStep b0 d)

/-- C5 (amended): the fb.py aggregation silently skips a single record
whose effective latitude or longitude is missing — whether a free-bike
record or a station record, anywhere in its list — and the result
equals the aggregation of the same input with that one record removed,
the other list arbitrary.  The fnb.py variant instead fails on such a
record (see the counterexample). -/
theorem C5_fb_skips_incomplete (lat0 lon0 : ℝ) (bikes bs1 bs2 : List BikeRec)
    (stations ss1 ss2 : List StationRec) (b : BikeRec) (s : StationRec) :
    ((b.latVal = none ∨ b.lonVal = none) →
      Fb.group_and_sort_spots lat0 lon0 (bs1 ++ b :: bs2) stations =
        Fb.group_and_sort_spots lat0 lon0 (bs1 ++ bs2) stations)
    ∧ ((s.latVal = none ∨ s.lonVal = none) →
      Fb.group_and_sort_spots lat0 lon0 bikes (ss1 ++ s :: ss2) =
        Fb.group_and_sort_spots lat0 lon0 bikes (ss1 ++ ss2)) := by
  constructor
  · intro hb
    unfold Fb.group_and_sort_spots Fb.spotList
    rw [Fb.bikePass_middle b hb bs1 bs2]
  · intro hs
    unfold Fb.group_and_sort_spots Fb.spotList
    rw [Fb.stationPass_middle s hs ss1 ss2]

/-- Witness for C5 on mixed inputs each containing exactly one malformed
record: one incomplete bike among a well-formed bike and station, and
one incomplete station before a well-formed station. -/
theorem C5_fb_skips_incomplete_witness :
    Fb.group_and_sort_spots 0 0
        [⟨some ("g"), some 1, some 1, none, none⟩, ⟨some ("x"), none, none, none, none⟩]
        [⟨some ("A"), some 1, some 1, none, none, some 5, none⟩] =
      Fb.group_and_sort_spots 0 0 [⟨some ("g"), some 1, some 1, none, none⟩]
        [⟨some ("A"), some 1, some 1, none, none, some 5, none⟩]
    ∧ Fb.group_and_sort_spots 0 0 []
        [⟨none, none, none, none, none, none, none⟩,
          ⟨some ("A"), some 1, some 1, none, none, some 5, none⟩] =
      Fb.group_and_sort_spots 0 0 []
        [⟨some ("A"), some 1, some 1, none, none, some 5, none⟩] :=
  ⟨(C5_fb_skips_incomplete 0 0 [] [⟨some ("g"), some 1, some 1, none, none⟩] []
      [⟨some ("A"), some 1, some 1, none, none, some 5, none⟩] [] []
      ⟨some ("x"), none, none, none, none⟩
      ⟨none, none, none, none, none, none, none⟩).1 (Or.inl rfl),
    (C5_fb_skips_incomplete 0 0 [] [] [] [] []
      [⟨some ("A"), some 1, some 1, none, none, some 5, none⟩]
      ⟨some ("x"), none, none, none, none⟩
      ⟨none, none, none, none, none, none, none⟩).2 (Or.inl rfl)⟩

/-- Helper: inserting an fb spot into a list keeps, among the spots of
any fixed rounded distance, the inserted spot in front exactly when it
has that distance — the passed-over spots are strictly closer. -/
theorem fb_filter_orderedInsert (c : ℝ) (x : FbSpot) :
    ∀ l : List FbSpot,
      (List.orderedInsert fbLe x l).filter (fun sp => sp.distance_km = c)
        = if x.distance_km = c
            then x :: l.filter (fun sp => sp.distance_km = c)
            else l.filter (fun sp => sp.distance_km = c) := by
  intro l
  induction l with
  | nil => by_cases hx : x.distance_km = c <;> simp [List.orderedInsert, hx]
  | cons b l ih =>
    by_cases hxb : fbLe x b
    · simp only [List.orderedInsert]
      rw [if_pos hxb]
      by_cases hx : x.distance_km = c <;> simp [List.filter_cons, hx]
    · simp only [List.orderedInsert]
      rw [if_neg hxb]
      have hblt : b.distance_km < x.distance_km := not_le.mp hxb
      by_cases hx : x.distance_km = c
      · have hb : b.distance_km ≠ c := by
          intro hc
          rw [hc, hx] at hblt
          exact lt_irrefl c hblt
        rw [if_pos hx]
        simp [List.filter_cons, hb, ih, hx]
      · rw [if_neg hx]
        by_cases hb : b.distance_km = c <;> simp [List.filter_cons, hb, ih, hx]

/-- Helper: the fb.py sort is stable — for every rounded distance value,
the sorted list restricted to that value equals the original list
restricted to it (i.e. ties stay in insertion order). -/
theorem fb_filter_insertionSort (c : ℝ) :
    ∀ l : List FbSpot,
      (l.insertionSort fbLe).filter (fun sp => sp.distance_km = c)
        = l.filter (fun sp => sp.distance_km = c) := by
  intro l
  induction l with
  | nil => rfl
  | cons x l ih =>
    simp only [List.insertionSort]
    rw [fb_filter_orderedInsert c x (l.insertionSort fbLe), ih]
    by_cases hx : x.distance_km = c <;> simp [List.filter_cons, hx]

/-- Helper: `fb_filter_orderedInsert` for fnb spots. -/
theorem fnb_filter_orderedInsert (c : ℝ) (x : FnbSpot) :
    ∀ l : List FnbSpot,
      (List.orderedInsert fnbLe x l).filter (fun sp => sp.distance_km = c)
        = if x.distance_km = c
            then x :: l.filter (fun sp => sp.distance_km = c)
            else l.filter (fun sp => sp.distance_km = c) := by
  intro l
  induction l with
  | nil => by_cases hx : x.distance_km = c <;> simp [List.orderedInsert, hx]
  | cons b l ih =>
    by_cases hxb : fnbLe x b
    · simp only [List.orderedInsert]
      rw [if_pos hxb]
      by_cases hx : x.distance_km = c <;> simp [List.filter_cons, hx]
    · simp only [List.orderedInsert]
      rw [if_neg hxb]
      have hblt : b.distance_km < x.distance_km := not_le.mp hxb
      by_cases hx : x.distance_km = c
      · have hb : b.distance_km ≠ c := by
          intro hc
          rw [hc, hx] at hblt
          exact lt_irrefl c hblt
        rw [if_pos hx]
        simp [List.filter_cons, hb, ih, hx]
      · rw [if_neg hx]
        by_cases hb : b.distance_km = c <;> simp [List.filter_cons, hb, ih, hx]

/-- Helper: `fb_filter_insertionSort` for fnb spots. -/
theorem fnb_filter_insertionSort (c : ℝ) :
    ∀ l : List FnbSpot,
      (l.insertionSort fnbLe).filter (fun sp => sp.distance_km = c)
        = l.filter (fun sp => sp.distance_km = c) := by
  intro l
  induction l with
  | nil => rfl
  | cons x l ih =>
    simp only [List.insertionSort]
    rw [fnb_filter_orderedInsert c x (l.insertionSort fnbLe), ih]
    by_cases hx : x.distance_km = c <;> simp [List.filter_cons, hx]

/-- C10: both aggregations rank spots by the stored `distance_km`, which
is the true haversine distance rounded to 3 decimals — the output is
pairwise non-decreasing in that rounded value — and the sort is stable:
for every rounded distance value `c`, the sorted spot list restricted to
distance `c` equals the pre-sort (insertion-order) list restricted to
`c`, so spots whose true distances differ but round equal keep their
insertion order. -/
theorem C10_ranking_rounded_stable (lat0 lon0 : ℝ) (bikes : List BikeRec)
    (stations : List StationRec) (n : ℕ) (c : ℝ) (pre : List FnbSpot)
    (hpre : Fnb.collectSpots lat0 lon0 bikes stations = some pre) :
    (Fb.group_and_sort_spots lat0 lon0 bikes stations).Pairwise fbLe
    ∧ ((Fb.spotList lat0 lon0 bikes stations).insertionSort fbLe).filter
        (fun sp => sp.distance_km = c)
      = (Fb.spotList lat0 lon0 bikes stations).filter (fun sp => sp.distance_km = c)
    ∧ Fnb.group_and_sort_spots lat0 lon0 bikes stations n =
        some ((pre.insertionSort fnbLe).take n)
    ∧ (pre.insertionSort fnbLe).filter (fun sp => sp.distance_km = c)
      = pre.filter (fun sp => sp.distance_km = c) :=
  ⟨(fb_sort_take (Fb.spotList lat0 lon0 bikes stations) 3).2,
    fb_filter_insertionSort c (Fb.spotList lat0 lon0 bikes stations),
    by unfold Fnb.group_and_sort_spots; rw [hpre]; rfl,
    fnb_filter_insertionSort c pre⟩

/-- Witness for C10 at a concrete (empty) input. -/
theorem C10_ranking_rounded_stable_witness :
    (Fb.group_and_sort_spots 0 0 [] []).Pairwise fbLe
    ∧ ((Fb.spotList 0 0 [] []).insertionSort fbLe).filter
        (fun sp => sp.distance_km = (0:ℝ))
      = (Fb.spotList 0 0 [] []).filter (fun sp => sp.distance_km = (0:ℝ))
    ∧ Fnb.group_and_sort_spots 0 0 [] [] 3 =
        some ((([] : List FnbSpot).insertionSort fnbLe).take 3)
    ∧ (([] : List FnbSpot).insertionSort fnbLe).filter (fun sp => sp.distance_km = (0:ℝ))
      = ([] : List FnbSpot).filter (fun sp => sp.distance_km = (0:ℝ)) :=
  C10_ranking_rounded_stable 0 0 [] [] 3 0 [] rfl

/-- C6 (amended): both variants return stations exactly when the query
matches exactly one network; on failure the printed candidate list
differs from the claim: the fnb.py variant prints the full sorted
nextbike city list in BOTH the zero-match and the multiple-match branch,
while the fb.py variant prints the ambiguous matching subset on multiple
matches but no candidate list at all on zero matches. -/
theorem C6_city_lookup (networks : List Network) (q : String) :
    (∀ net, Fnb.cityMatches networks q = [net] →
        Fnb.fetch_citybikes_data networks q = CityResult.found net.stations net.city)
    ∧ ((Fnb.cityMatches networks q).length ≠ 1 →
        Fnb.fetch_citybikes_data networks q = CityResult.failure (Fnb.allCities networks))
    ∧ (∀ net, Fb.cityMatches networks q = [net] →
        Fb.fetch_citybikes_data networks q = CityResult.found net.stations net.city)
    ∧ (Fb.cityMatches networks q = [] →
        Fb.fetch_citybikes_data networks q = CityResult.failure [])
    ∧ (2 ≤ (Fb.cityMatches networks q).length →
        Fb.fetch_citybikes_data networks q = CityResult.failure
          ((Fb.cityMatches networks q).map fun m => m.city ++ " (" ++ m.id ++ ")")) := by
  refine ⟨fun net h => ?_, fun hlen => ?_, fun net h => ?_, fun h => ?_, fun hlen => ?_⟩
  · unfold Fnb.fetch_citybikes_data
    rw [h]
  · unfold Fnb.fetch_citybikes_data
    cases hm : Fnb.cityMatches networks q with
    | nil => rfl
    | cons x rest =>
      cases rest with
      | nil => rw [hm] at hlen; simp at hlen
      | cons y rest2 => rfl
  · unfold Fb.fetch_citybikes_data
    rw [h]
  · unfold Fb.fetch_citybikes_data
    rw [h]
  · unfold Fb.fetch_citybikes_data
    cases hm : Fb.cityMatches networks q with
    | nil => rw [hm] at hlen; simp at hlen
    | cons x rest =>
      cases rest with
      | nil => rw [hm] at hlen; simp at hlen
      | cons y rest2 => rfl

/-- Witness for C6 at concrete network directories. -/
theorem C6_city_lookup_witness :
    Fnb.fetch_citybikes_data [⟨"nextbike-wr", "Wien", []⟩] "wien" =
      CityResult.found [] "Wien"
    ∧ Fnb.fetch_citybikes_data
        [⟨"nextbike-wr", "Wien", []⟩, ⟨"nextbike-wn", "Wiener Neustadt", []⟩] "wien" =
      CityResult.failure
        (Fnb.allCities [⟨"nextbike-wr", "Wien", []⟩, ⟨"nextbike-wn", "Wiener Neustadt", []⟩])
    ∧ Fb.fetch_citybikes_data [⟨"nextbike-wr", "Wien", []⟩] "wien" =
      CityResult.found [] "Wien"
    ∧ Fb.fetch_citybikes_data [⟨"nextbike-g", "Graz", []⟩] "wien" = CityResult.failure []
    ∧ Fb.fetch_citybikes_data [⟨"a", "Wien", []⟩, ⟨"b", "Wiener Neustadt", []⟩] "wien" =
        CityResult.failure
          ((Fb.cityMatches [⟨"a", "Wien", []⟩, ⟨"b", "Wiener Neustadt", []⟩] "wien").map
            fun m => m.city ++ " (" ++ m.id ++ ")") :=
  ⟨(C6_city_lookup [⟨"nextbike-wr", "Wien", []⟩] "wien").1 ⟨"nextbike-wr", "Wien", []⟩ (by decide),
    (C6_city_lookup [⟨"nextbike-wr", "Wien", []⟩, ⟨"nextbike-wn", "Wiener Neustadt", []⟩]
      "wien").2.1 (by decide),
    (C6_city_lookup [⟨"nextbike-wr", "Wien", []⟩] "wien").2.2.1
      ⟨"nextbike-wr", "Wien", []⟩ (by decide),
    (C6_city_lookup [⟨"nextbike-g", "Graz", []⟩] "wien").2.2.2.1 (by decide),
    (C6_city_lookup [⟨"a", "Wien", []⟩, ⟨"b", "Wiener Neustadt", []⟩] "wien").2.2.2.2 (by decide)⟩

/-- C6 counterexample: with networks Wien, Wiener Neustadt and Graz (all
nextbike) and query "wien" there are two matches, yet fnb.py prints the
full sorted city list including the non-matching Graz — not exactly the
ambiguous subset; and with zero matches fb.py prints no candidate list
at all — not the full list. -/
theorem C6_counterexample :
    Fnb.fetch_citybikes_data
        [⟨"nextbike-wr", "Wien", []⟩, ⟨"nextbike-wn", "Wiener Neustadt", []⟩,
          ⟨"nextbike-g", "Graz", []⟩] "wien"
      = CityResult.failure ["Graz", "Wien", "Wiener Neustadt"]
    ∧ Fnb.fetch_citybikes_data
        [⟨"nextbike-wr", "Wien", []⟩, ⟨"nextbike-wn", "Wiener Neustadt", []⟩,
          ⟨"nextbike-g", "Graz", []⟩] "wien"
      ≠ CityResult.failure ["Wien", "Wiener Neustadt"]
    ∧ Fb.fetch_citybikes_data [⟨"nextbike-g", "Graz", []⟩] "wien" = CityResult.failure []
    ∧ Fb.fetch_citybikes_data [⟨"nextbike-g", "Graz", []⟩] "wien"
      ≠ CityResult.failure ["Graz"] := by
  decide

/-- Helper: updating the spot dictionary either keeps the key list (key
present) or appends the new key at the end (Python dictionaries preserve
insertion order). -/
theorem Fb.update_keys (key : ℤ × ℤ) (init : SpotAcc) (f : SpotAcc → SpotAcc) :
    ∀ d : List ((ℤ × ℤ) × SpotAcc),
      (Fb.update key init f d).map Prod.fst =
        if key ∈ d.map Prod.fst then d.map Prod.fst else d.map Prod.fst ++ [key] := by
  intro d
  induction d with
  | nil => simp [Fb.update]
  | cons kv0 rest ih =>
    obtain ⟨k, v⟩ := kv0
    by_cases hk : k = key
    · subst hk
      simp [Fb.update]
    · have hk2 : ¬ key = k := fun h => hk h.symm
      by_cases hmem : key ∈ rest.map Prod.fst <;>
        simp [Fb.update, hk, hk2, ih, hmem]

/-- Helper: updating the spot dictionary preserves distinctness of its
keys. -/
theorem Fb.update_keys_nodup (key : ℤ × ℤ) (init : SpotAcc) (f : SpotAcc → SpotAcc)
    (d : List ((ℤ × ℤ) × SpotAcc)) (h : (d.map Prod.fst).Nodup) :
    ((Fb.update key init f d).map Prod.fst).Nodup := by
  rw [Fb.update_keys]
  by_cases hmem : key ∈ d.map Prod.fst
  · rw [if_pos hmem]
    exact h
  · rw [if_neg hmem]
    simp [List.nodup_append, h, hmem]

/-- Helper: an entry of the updated dictionary is an untouched old entry
with a different key, the transformed old entry at the key, or the
transformed default when the key was new. -/
theorem Fb.mem_update (key : ℤ × ℤ) (init : SpotAcc) (f : SpotAcc → SpotAcc) :
    ∀ (d : List ((ℤ × ℤ) × SpotAcc)), (d.map Prod.fst).Nodup →
      ∀ kv : (ℤ × ℤ) × SpotAcc, kv ∈ Fb.update key init f d →
      (kv ∈ d ∧ kv.1 ≠ key)
      ∨ (∃ v, (key, v) ∈ d ∧ kv = (key, f v))
      ∨ (key ∉ d.map Prod.fst ∧ kv = (key, f init)) := by
  intro d
  induction d with
  | nil =>
    intro hnd kv h
    simp only [Fb.update, List.mem_singleton] at h
    exact Or.inr (Or.inr ⟨by simp, h⟩)
  | cons kv0 rest ih =>
    obtain ⟨k, v⟩ := kv0
    intro hnd kv h
    by_cases hk : k = key
    · subst hk
      rw [Fb.update, if_pos rfl] at h
      rcases List.mem_cons.mp h with h1 | h1
      · exact Or.inr (Or.inl ⟨v, List.mem_cons_self _ _, h1⟩)
      · have hkey : k ∉ rest.map Prod.fst := by
          have h2 := hnd
          rw [List.map_cons, List.nodup_cons] at h2
          exact h2.1
        refine Or.inl ⟨List.mem_cons_of_mem _ h1, fun he => hkey ?_⟩
        rw [← he]
        exact List.mem_map_of_mem Prod.fst h1
    · rw [Fb.update, if_neg hk] at h
      rcases List.mem_cons.mp h with h1 | h1
      · refine Or.inl ⟨by rw [h1]; exact List.mem_cons_self _ _, ?_⟩
        rw [h1]
        exact hk
      · have hnd2 : (rest.map Prod.fst).Nodup := by
          rw [List.map_cons, List.nodup_cons] at hnd
          exact hnd.2
        rcases ih hnd2 kv h1 with ⟨hm, hne⟩ | ⟨w, hw, he⟩ | ⟨hnm, he⟩
        · exact Or.inl ⟨List.mem_cons_of_mem _ hm, hne⟩
        · exact Or.inr (Or.inl ⟨w, List.mem_cons_of_mem _ hw, he⟩)
        · refine Or.inr (Or.inr ⟨?_, he⟩)
          rw [List.map_cons]
          intro hc
          rcases List.mem_cons.mp hc with hc1 | hc1
          · exact hk hc1.symm
          · exact hnm hc1

/-- Helper: contribution of one more station record to the per-key
station sum. -/
theorem stationSum_append (k : ℤ × ℤ) (ss : List StationRec) (s : StationRec) :
    stationSum k (ss ++ [s]) =
      stationSum k ss + (if stationKeyS s = some k then s.free_bikes.getD 0 else 0) := by
  unfold stationSum
  rw [List.filter_append, List.map_append, List.sum_append]
  congr 1
  by_cases hs : stationKeyS s = some k <;> simp [List.filter_cons, hs]

/-- Helper: contribution of one more bike record to the per-key
identifier set. -/
theorem bikeIds_append (k : ℤ × ℤ) (bs : List BikeRec) (b : BikeRec) :
    bikeIds k (bs ++ [b]) =
      if bikeKeyS b = some k
        then insert (b.bike_id.getD ("unknown")) (bikeIds k bs)
        else bikeIds k bs := by
  unfold bikeIds
  rw [List.filter_append, List.map_append, List.toFinset_append]
  by_cases hb : bikeKeyS b = some k <;>
    simp [List.filter_cons, hb, Finset.union_comm, Finset.insert_eq]

/-- Helper: a station record that contributes no key leaves the
dictionary invariant intact. -/
theorem FbInv_station_skip (s : StationRec) (d : List ((ℤ × ℤ) × SpotAcc))
    (ss0 : List StationRec) (hs : stationKeyS s = none) (hinv : FbInv d ss0 []) :
    FbInv d (ss0 ++ [s]) [] := by
  obtain ⟨hnd, hval, habs⟩ := hinv
  refine ⟨hnd, ?_, ?_⟩
  · intro kv hkv
    obtain ⟨h1, h2⟩ := hval kv hkv
    refine ⟨?_, h2⟩
    rw [stationSum_append, hs]
    simp [h1]
  · intro k hk
    obtain ⟨h1, h2⟩ := habs k hk
    refine ⟨?_, h2⟩
    rw [stationSum_append, hs]
    simp [h1]

/-- Helper: one station step preserves the dictionary invariant, now
accounting for the processed record. -/
theorem Fb.stationStep_inv (s : StationRec) (d : List ((ℤ × ℤ) × SpotAcc))
    (ss0 : List StationRec) (hinv : FbInv d ss0 []) :
    FbInv (Fb.stationStep s d) (ss0 ++ [s]) [] := by
  cases hla : s.latVal with
  | none =>
    have hstep : Fb.stationStep s d = d := by
      unfold Fb.stationStep
      rw [hla]
    have hkey : stationKeyS s = none := by
      unfold stationKeyS
      rw [hla]
    rw [hstep]
    exact FbInv_station_skip s d ss0 hkey hinv
  | some la =>
    cases hlo : s.lonVal with
    | none =>
      have hstep : Fb.stationStep s d = d := by
        unfold Fb.stationStep
        rw [hla, hlo]
      have hkey : stationKeyS s = none := by
        unfold stationKeyS
        rw [hla, hlo]
      rw [hstep]
      exact FbInv_station_skip s d ss0 hkey hinv
    | some lo =>
      obtain ⟨hnd, hval, habs⟩ := hinv
      have hkey : stationKeyS s = some (roundScaled 6 la, roundScaled 6 lo) := by
        unfold stationKeyS
        rw [hla, hlo]
      have hstep : Fb.stationStep s d =
          Fb.update (roundScaled 6 la, roundScaled 6 lo) ⟨la, lo, 0, ∅, ∅⟩
            (fun v =>
              { v with
                station_bikes := v.station_bikes + s.free_bikes.getD 0,
                station_names := insert (s.name.getD ("Unnamed")) v.station_names }) d := by
        unfold Fb.stationStep
        rw [hla, hlo]
      rw [hstep]
      refine ⟨Fb.update_keys_nodup _ _ _ d hnd, ?_, ?_⟩
      · intro kv hkv
        rcases Fb.mem_update _ _ _ d hnd kv hkv with ⟨hm, hne⟩ | ⟨v, hv, he⟩ | ⟨hnm, he⟩
        · obtain ⟨h1, h2⟩ := hval kv hm
          refine ⟨?_, h2⟩
          rw [stationSum_append, hkey,
            if_neg (fun hc => hne (Option.some.inj hc).symm), add_zero]
          exact h1
        · have h1 : v.station_bikes = stationSum (roundScaled 6 la, roundScaled 6 lo) ss0 :=
            (hval _ hv).1
          have h2 : v.free_bike_ids = bikeIds (roundScaled 6 la, roundScaled 6 lo) [] :=
            (hval _ hv).2
          subst he
          refine ⟨?_, ?_⟩
          · show v.station_bikes + s.free_bikes.getD 0 =
              stationSum (roundScaled 6 la, roundScaled 6 lo) (ss0 ++ [s])
            rw [stationSum_append, hkey, if_pos rfl, h1]
          · show v.free_bike_ids = bikeIds (roundScaled 6 la, roundScaled 6 lo) []
            exact h2
        · have h1 : stationSum (roundScaled 6 la, roundScaled 6 lo) ss0 = 0 := (habs _ hnm).1
          have h2 : bikeIds (roundScaled 6 la, roundScaled 6 lo) [] = ∅ := (habs _ hnm).2
          subst he
          refine ⟨?_, ?_⟩
          · show (0 : ℤ) + s.free_bikes.getD 0 =
              stationSum (roundScaled 6 la, roundScaled 6 lo) (ss0 ++ [s])
            rw [stationSum_append, hkey, if_pos rfl, h1]
          · show (∅ : Finset String) = bikeIds (roundScaled 6 la, roundScaled 6 lo) []
            exact h2.symm
      · intro k hk
        rw [Fb.update_keys] at hk
        by_cases hmem : (roundScaled 6 la, roundScaled 6 lo) ∈ d.map Prod.fst
        · rw [if_pos hmem] at hk
          obtain ⟨h1, h2⟩ := habs k hk
          have hne : (roundScaled 6 la, roundScaled 6 lo) ≠ k := fun he => hk (he ▸ hmem)
          refine ⟨?_, h2⟩
          rw [stationSum_append, hkey, if_neg (fun hc => hne (Option.some.inj hc)), add_zero]
          exact h1
        · rw [if_neg hmem] at hk
          rw [List.mem_append] at hk
          push_neg at hk
          obtain ⟨hk1, hk2⟩ := hk
          have hk3 : k ≠ (roundScaled 6 la, roundScaled 6 lo) := by
            simpa using hk2
          obtain ⟨h1, h2⟩ := habs k hk1
          refine ⟨?_, h2⟩
          rw [stationSum_append, hkey, if_neg (fun hc => hk3 (Option.some.inj hc).symm), add_zero]
          exact h1

/-- Helper: a bike record that contributes no key leaves the dictionary
invariant intact. -/
theorem FbInv_bike_skip (b : BikeRec) (d : List ((ℤ × ℤ) × SpotAcc))
    (ss : List StationRec) (bs0 : List BikeRec) (hb : bikeKeyS b = none)
    (hinv : FbInv d ss bs0) : FbInv d ss (bs0 ++ [b]) := by
  obtain ⟨hnd, hval, habs⟩ := hinv
  refine ⟨hnd, ?_, ?_⟩
  · intro kv hkv
    obtain ⟨h1, h2⟩ := hval kv hkv
    refine ⟨h1, ?_⟩
    rw [bikeIds_append, hb]
    simp [h2]
  · intro k hk
    obtain ⟨h1, h2⟩ := habs k hk
    refine ⟨h1, ?_⟩
    rw [bikeIds_append, hb]
    simp [h2]

/-- Helper: one bike step preserves the dictionary invariant, now
accounting for the processed record. -/
theorem Fb.bikeStep_inv (b : BikeRec) (d : List ((ℤ × ℤ) × SpotAcc))
    (ss : List StationRec) (bs0 : List BikeRec) (hinv : FbInv d ss bs0) :
    FbInv (Fb.bikeStep b d) ss (bs0 ++ [b]) := by
  cases hla : b.latVal with
  | none =>
    have hstep : Fb.bikeStep b d = d := by
      unfold Fb.bikeStep
      rw [hla]
    have hkey : bikeKeyS b = none := by
      unfold bikeKeyS
      rw [hla]
    rw [hstep]
    exact FbInv_bike_skip b d ss bs0 hkey hinv
  | some la =>
    cases hlo : b.lonVal with
    | none =>
      have hstep : Fb.bikeStep b d = d := by
        unfold Fb.bikeStep
        rw [hla, hlo]
      have hkey : bikeKeyS b = none := by
        unfold bikeKeyS
        rw [hla, hlo]
      rw [hstep]
      exact FbInv_bike_skip b d ss bs0 hkey hinv
    | some lo =>
      obtain ⟨hnd, hval, habs⟩ := hinv
      have hkey : bikeKeyS b = some (roundScaled 6 la, roundScaled 6 lo) := by
        unfold bikeKeyS
        rw [hla, hlo]
      have hstep : Fb.bikeStep b d =
          Fb.update (roundScaled 6 la, roundScaled 6 lo) ⟨la, lo, 0, ∅, ∅⟩
            (fun v =>
              { v with free_bike_ids := insert (b.bike_id.getD ("unknown")) v.free_bike_ids })
            d := by
        unfold Fb.bikeStep
        rw [hla, hlo]
      rw [hstep]
      refine ⟨Fb.update_keys_nodup _ _ _ d hnd, ?_, ?_⟩
      · intro kv hkv
        rcases Fb.mem_update _ _ _ d hnd kv hkv with ⟨hm, hne⟩ | ⟨v, hv, he⟩ | ⟨hnm, he⟩
        · obtain ⟨h1, h2⟩ := hval kv hm
          refine ⟨h1, ?_⟩
          rw [bikeIds_append, hkey, if_neg (fun hc => hne (Option.some.inj hc).symm)]
          exact h2
        · have h1 : v.station_bikes = stationSum (roundScaled 6 la, roundScaled 6 lo) ss :=
            (hval _ hv).1
          have h2 : v.free_bike_ids = bikeIds (roundScaled 6 la, roundScaled 6 lo) bs0 :=
            (hval _ hv).2
          subst he
          refine ⟨?_, ?_⟩
          · show v.station_bikes = stationSum (roundScaled 6 la, roundScaled 6 lo) ss
            exact h1
          · show insert (b.bike_id.getD ("unknown")) v.free_bike_ids =
              bikeIds (roundScaled 6 la, roundScaled 6 lo) (bs0 ++ [b])
            rw [bikeIds_append, hkey, if_pos rfl, h2]
        · have h1 : stationSum (roundScaled 6 la, roundScaled 6 lo) ss = 0 := (habs _ hnm).1
          have h2 : bikeIds (roundScaled 6 la, roundScaled 6 lo) bs0 = ∅ := (habs _ hnm).2
          subst he
          refine ⟨?_, ?_⟩
          · show (0 : ℤ) = stationSum (roundScaled 6 la, roundScaled 6 lo) ss
            exact h1.symm
          · show insert (b.bike_id.getD ("unknown")) (∅ : Finset String) =
              bikeIds (roundScaled 6 la, roundScaled 6 lo) (bs0 ++ [b])
            rw [bikeIds_append, hkey, if_pos rfl, h2]
      · intro k hk
        rw [Fb.update_keys] at hk
        by_cases hmem : (roundScaled 6 la, roundScaled 6 lo) ∈ d.map Prod.fst
        · rw [if_pos hmem] at hk
          obtain ⟨h1, h2⟩ := habs k hk
          have hne : (roundScaled 6 la, roundScaled 6 lo) ≠ k := fun he => hk (he ▸ hmem)
          refine ⟨h1, ?_⟩
          rw [bikeIds_append, hkey, if_neg (fun hc => hne (Option.some.inj hc))]
          exact h2
        · rw [if_neg hmem] at hk
          rw [List.mem_append] at hk
          push_neg at hk
          obtain ⟨hk1, hk2⟩ := hk
          have hk3 : k ≠ (roundScaled 6 la, roundScaled 6 lo) := by
            simpa using hk2
          obtain ⟨h1, h2⟩ := habs k hk1
          refine ⟨h1, ?_⟩
          rw [bikeIds_append, hkey, if_neg (fun hc => hk3 (Option.some.inj hc).symm)]
          exact h2

/-- Helper: the station pass establishes the invariant for all processed
station records. -/
theorem Fb.stationPass_inv :
    ∀ (ss : List StationRec) (d : List ((ℤ × ℤ) × SpotAcc)) (ss0 : List StationRec),
      FbInv d ss0 [] → FbInv (Fb.stationPass ss d) (ss0 ++ ss) [] := by
  intro ss
  induction ss with
  | nil =>
    intro d ss0 h
    simpa using h
  | cons s rest ih =>
    intro d ss0 h
    rw [Fb.stationPass]
    have h2 := ih (Fb.stationStep s d) (ss0 ++ [s]) (Fb.stationStep_inv s d ss0 h)
    simpa [List.append_assoc] using h2

/-- Helper: the bike pass establishes the invariant for all processed
bike records, keeping the station data fixed. -/
theorem Fb.bikePass_inv :
    ∀ (bs : List BikeRec) (d : List ((ℤ × ℤ) × SpotAcc)) (ss : List StationRec)
      (bs0 : List BikeRec),
      FbInv d ss bs0 → FbInv (Fb.bikePass bs d) ss (bs0 ++ bs) := by
  intro bs
  induction bs with
  | nil =>
    intro d ss bs0 h
    simpa using h
  | cons b rest ih =>
    intro d ss bs0 h
    rw [Fb.bikePass]
    have h2 := ih (Fb.bikeStep b d) ss (bs0 ++ [b]) (Fb.bikeStep_inv b d ss bs0 h)
    simpa [List.append_assoc] using h2

/-- Helper: the completed fb.py spot dictionary satisfies the invariant
for the full record lists. -/
theorem Fb.dict_inv (bikes : List BikeRec) (stations : List StationRec) :
    FbInv (Fb.bikePass bikes (Fb.stationPass stations [])) stations bikes := by
  have h0 : FbInv [] [] [] := by
    refine ⟨List.nodup_nil, by simp, ?_⟩
    intro k hk
    exact ⟨rfl, rfl⟩
  have h1 := Fb.stationPass_inv stations [] [] h0
  have h2 := Fb.bikePass_inv bikes (Fb.stationPass stations []) stations []
    (by simpa using h1)
  simpa using h2

/-- Helper: the head of a nonempty list is a member. -/
theorem headI_mem_of_pos {α : Type} [Inhabited α] {l : List α} (h : 0 < l.length) :
    l.headI ∈ l := by
  cases l with
  | nil => simp at h
  | cons a t => simp [List.headI]

/-- C7: every spot returned by the fb.py aggregation carries exactly the
sum of the `free_bikes` counts of the station records at its rounded
coordinate, and exactly the set of effective bike identifiers of the
bike records at that coordinate (so its size is the number of distinct
identifiers there). -/
theorem C7_aggregate_counts (lat0 lon0 : ℝ) (bikes : List BikeRec)
    (stations : List StationRec) :
    ∀ sp ∈ Fb.group_and_sort_spots lat0 lon0 bikes stations,
      sp.station_bikes = stationSum (sp.lat, sp.lon) stations
      ∧ sp.free_bike_ids = bikeIds (sp.lat, sp.lon) bikes := by
  intro sp hsp
  have hsp2 : sp ∈ Fb.spotList lat0 lon0 bikes stations :=
    (List.perm_insertionSort fbLe _).subset ((List.take_sublist _ _).subset hsp)
  unfold Fb.spotList Fb.buildSpots at hsp2
  obtain ⟨kv, hkv, rfl⟩ := List.mem_map.mp hsp2
  obtain ⟨-, hval, -⟩ := Fb.dict_inv bikes stations
  have h1 : kv.2.station_bikes = stationSum kv.1 stations := (hval kv hkv).1
  have h2 : kv.2.free_bike_ids = bikeIds kv.1 bikes := (hval kv hkv).2
  constructor
  · show kv.2.station_bikes = stationSum (kv.1.1, kv.1.2) stations
    rw [h1]
  · show kv.2.free_bike_ids = bikeIds (kv.1.1, kv.1.2) bikes
    rw [h2]

/-- Witness for C7 at a concrete single-station input. -/
theorem C7_aggregate_counts_witness :
    ((Fb.group_and_sort_spots 0 0 []
        [⟨some ("A"), some 1, some 1, none, none, some 5, none⟩]).headI).station_bikes = 5
    ∧ ((Fb.group_and_sort_spots 0 0 []
        [⟨some ("A"), some 1, some 1, none, none, some 5, none⟩]).headI).free_bike_ids.card
      = 0 := by
  have hmem : (Fb.group_and_sort_spots 0 0 []
      [⟨some ("A"), some 1, some 1, none, none, some 5, none⟩]).headI ∈
      Fb.group_and_sort_spots 0 0 [] [⟨some ("A"), some 1, some 1, none, none, some 5, none⟩] :=
    headI_mem_of_pos (by decide)
  obtain ⟨h1, h2⟩ := C7_aggregate_counts 0 0 []
    [⟨some ("A"), some 1, some 1, none, none, some 5, none⟩] _ hmem
  constructor
  · rw [h1]
    decide
  · rw [h2]
    decide
